import Mathlib

/-!
Shallow embedding of the libEPOS STM32 motor-controller driver
(src/epos.c, src/epos.h) and proofs about its protocol engine.

Conventions of the embedding: C machine integers are modelled as Nat
(bytes, 16-bit words, 32-bit dictionary values), with masking made
explicit where the C code masks; the signed 32-bit telemetry caches are
modelled as Int through toInt32.  A CAN frame is a structure holding the
identifier, the length and the payload bytes.  The blocking receive
inside readAnswer is modelled by passing, as an explicit argument, the
response frame that the inbound dispatcher would have placed into the
SDO slot; a transaction whose response never arrives has result none.
-/

namespace LibEPOS

/-- Little-endian decode of four bytes, exactly as the C expression
computes it: (b3 shifted by 24) + (b2 shifted by 16) + (b1 shifted by 8) + b0. -/
def le32 (b0 b1 b2 b3 : Nat) : Nat := (b3 <<< 24) + (b2 <<< 16) + (b1 <<< 8) + b0

/-- Little-endian decode of two bytes: (b1 shifted by 8) + b0
(used by the emergency-frame branch of processCANMsg, line 2319). -/
def le16 (b0 b1 : Nat) : Nat := (b1 <<< 8) + b0

/-- Reinterpret a 32-bit unsigned value as a signed two-complement int32_t,
as the C stores of the assembled little-endian value into int32_t fields do. -/
def toInt32 (n : Nat) : Int :=
  if n % 4294967296 < 2147483648 then ((n % 4294967296 : Nat) : Int)
  else ((n % 4294967296 : Nat) : Int) - 4294967296

/-- Model of CanRxMsgTypeDef / CanTxMsgTypeDef: the identifier, the data
length code and the payload bytes (each byte a Nat below 256). -/
structure CanMsg where
  StdId : Nat
  DLC : Nat
  Data : List Nat
deriving Repr, DecidableEq

/-- Payload byte access, Data[i]. -/
def CanMsg.byte (m : CanMsg) (i : Nat) : Nat := m.Data.getD i 0

/-- Model of the epos_t device structure (epos.h lines 38-61), keeping
the fields the protocol engine touches.  The CAN handle is external. -/
structure epos_t where
  Node_ID : Nat
  TxMessage : CanMsg
  SDOMsg : CanMsg
  ErrFlag : Bool
  Dev_Err : Nat
  SDORcvFlag : Bool
  PDO1Msg : CanMsg
  PDO1RcvFlag : Bool
  PDO2Msg : CanMsg
  PDO2RcvFlag : Bool
  PDO3Msg : CanMsg
  PDO3RcvFlag : Bool
  PDO4Msg : CanMsg
  PDO4RcvFlag : Bool
  RxPosition : Int
  RxVelocity : Int
  E_error : Nat
deriving Repr, DecidableEq

/-- Statusword bit 15 (epos.c line 125). -/
def E_BIT15 : Nat := 0x8000
/-- Statusword bit 14: refresh cycle of power stage. -/
def E_BIT14 : Nat := 0x4000
/-- Statusword bit 13: OpMode specific, some error (homing error). -/
def E_BIT13 : Nat := 0x2000
/-- Statusword bit 12: OpMode specific (homing attained). -/
def E_BIT12 : Nat := 0x1000
/-- Statusword bit 11: not used. -/
def E_BIT11 : Nat := 0x0800
/-- Statusword bit 10: target reached. -/
def E_BIT10 : Nat := 0x0400
/-- Statusword bit 9: remote. -/
def E_BIT09 : Nat := 0x0200
/-- Statusword bit 8: offset current measured. -/
def E_BIT08 : Nat := 0x0100
/-- Statusword bit 7: warning. -/
def E_BIT07 : Nat := 0x0080
/-- Statusword bit 6: switch on disable. -/
def E_BIT06 : Nat := 0x0040
/-- Statusword bit 5: quick stop. -/
def E_BIT05 : Nat := 0x0020
/-- Statusword bit 4: voltage enabled. -/
def E_BIT04 : Nat := 0x0010
/-- Statusword bit 3: fault. -/
def E_BIT03 : Nat := 0x0008
/-- Statusword bit 2: operation enable. -/
def E_BIT02 : Nat := 0x0004
/-- Statusword bit 1: switched on. -/
def E_BIT01 : Nat := 0x0002
/-- Statusword bit 0: ready to switch on. -/
def E_BIT00 : Nat := 0x0001

/-- Model of bitcmp (epos.c lines 2108-2111): compare two 16-bit masks,
true when every bit of b is set in a. -/
def bitcmp (a b : Nat) : Bool := (a &&& b) == b

/-- The tuple of the nine bitcmp tests that the state decoder consults:
bits 0,1,2,3,4,5,6 then bit 8 then bit 14, in the order the source
lists them inside every condition of checkEPOSstate. -/
abbrev StatusBits := Bool × Bool × Bool × Bool × Bool × Bool × Bool × Bool × Bool

set_option synthInstance.maxSize 1000 in
instance : DecidableEq StatusBits := inferInstance

/-- The nine bitcmp tests of a status word, in source order. -/
def bitsOf (w : Nat) : StatusBits :=
  (bitcmp w E_BIT00, bitcmp w E_BIT01, bitcmp w E_BIT02, bitcmp w E_BIT03,
   bitcmp w E_BIT04, bitcmp w E_BIT05, bitcmp w E_BIT06, bitcmp w E_BIT08,
   bitcmp w E_BIT14)

/-- Condition of the i-th branch of checkEPOSstate (epos.c lines 419-526),
expressed over the nine bitcmp values in source order: each branch i
requires an exact polarity for every one of the nine tested bits. -/
def patternBits (i : Nat) (s : StatusBits) : Bool :=
  match i, s with
  | 0, (a0, a1, a2, a3, a4, a5, a6, a8, a14) =>
      !a0 && !a1 && !a2 && !a3 && !a4 && !a5 && !a6 && !a8 && !a14
  | 1, (a0, a1, a2, a3, a4, a5, a6, a8, a14) =>
      !a0 && !a1 && !a2 && !a3 && !a4 && !a5 && !a6 && a8 && !a14
  | 2, (a0, a1, a2, a3, a4, a5, a6, a8, a14) =>
      !a0 && !a1 && !a2 && !a3 && !a4 && !a5 && a6 && a8 && !a14
  | 3, (a0, a1, a2, a3, a4, a5, a6, a8, a14) =>
      a0 && !a1 && !a2 && !a3 && !a4 && a5 && !a6 && a8 && !a14
  | 4, (a0, a1, a2, a3, a4, a5, a6, a8, a14) =>
      a0 && a1 && !a2 && !a3 && !a4 && a5 && !a6 && a8 && !a14
  | 5, (a0, a1, a2, a3, a4, a5, a6, a8, a14) =>
      a0 && a1 && !a2 && !a3 && !a4 && a5 && !a6 && a8 && a14
  | 6, (a0, a1, a2, a3, a4, a5, a6, a8, a14) =>
      a0 && a1 && !a2 && !a3 && a4 && a5 && !a6 && a8 && a14
  | 7, (a0, a1, a2, a3, a4, a5, a6, a8, a14) =>
      a0 && a1 && a2 && !a3 && a4 && a5 && !a6 && a8 && !a14
  | 8, (a0, a1, a2, a3, a4, a5, a6, a8, a14) =>
      a0 && a1 && a2 && !a3 && a4 && !a5 && !a6 && a8 && !a14
  | 9, (a0, a1, a2, a3, a4, a5, a6, a8, a14) =>
      a0 && a1 && a2 && a3 && !a4 && !a5 && !a6 && a8 && !a14
  | 10, (a0, a1, a2, a3, a4, a5, a6, a8, a14) =>
      a0 && a1 && a2 && a3 && a4 && !a5 && !a6 && a8 && !a14
  | 11, (a0, a1, a2, a3, a4, a5, a6, a8, a14) =>
      !a0 && !a1 && !a2 && a3 && !a4 && !a5 && !a6 && a8 && !a14
  | _, _ => false

/-- The i-th status-word bit pattern of checkEPOSstate, as a predicate on
the raw 16-bit word. -/
def pattern (i : Nat) (w : Nat) : Bool := patternBits i (bitsOf w)

/-- The if-chain of checkEPOSstate over the nine tested bits: first
matching branch returns its state ordinal, otherwise -2 (unknown). -/
def stateOfBits (s : StatusBits) : Int :=
  if patternBits 0 s then 0
  else if patternBits 1 s then 1
  else if patternBits 2 s then 2
  else if patternBits 3 s then 3
  else if patternBits 4 s then 4
  else if patternBits 5 s then 5
  else if patternBits 6 s then 6
  else if patternBits 7 s then 7
  else if patternBits 8 s then 8
  else if patternBits 9 s then 9
  else if patternBits 10 s then 10
  else if patternBits 11 s then 11
  else -2

/-- Decoding portion of checkEPOSstate (epos.c lines 406-535) as a pure
function of the status word already read from the device. -/
def checkEPOSstate (w : Nat) : Int := stateOfBits (bitsOf w)

/-- One scan step of the dispatcher (inner device loop of processCANMsg,
epos.c lines 2287-2322): test the frame identifier against the six
offsets of this device, in source order 0x180, 0x280, 0x380, 0x480,
0x580, 0x80; on a match copy the frame into the channel slot and raise
the corresponding available flag; none when this device does not match. -/
def applyMsg (e : epos_t) (m : CanMsg) : Option epos_t :=
  if m.StdId = e.Node_ID + 0x180 then some { e with PDO1Msg := m, PDO1RcvFlag := true }
  else if m.StdId = e.Node_ID + 0x280 then some { e with PDO2Msg := m, PDO2RcvFlag := true }
  else if m.StdId = e.Node_ID + 0x380 then some { e with PDO3Msg := m, PDO3RcvFlag := true }
  else if m.StdId = e.Node_ID + 0x480 then some { e with PDO4Msg := m, PDO4RcvFlag := true }
  else if m.StdId = e.Node_ID + 0x580 then some { e with SDOMsg := m, SDORcvFlag := true }
  else if m.StdId = e.Node_ID + 0x80 then
    some { e with Dev_Err := le16 (m.byte 0) (m.byte 1), ErrFlag := true }
  else none

/-- Effect of one frame on one device when scanning can ignore the other
devices (at most one device matches): the update when it matches, the
device itself when not. -/
def updDev (m : CanMsg) (d : epos_t) : epos_t := (applyMsg d m).getD d

/-- Dispatch of one buffered frame over the device array (the for loop of
processCANMsg): the first device whose identifier offset matches claims
the frame; the Bool records whether any device claimed it (i < num). -/
def dispatchOne : List epos_t → CanMsg → List epos_t × Bool
  | [], _ => ([], false)
  | e :: rest, m =>
      match applyMsg e m with
      | some e2 => (e2 :: rest, true)
      | none =>
          let p := dispatchOne rest m
          (e :: p.1, p.2)

/-- The while loop of processCANMsg (epos.c lines 2277-2329): the buffer
holds frames in arrival order, and the loop consumes CANMsgBuf[pCANMsg-1]
downward, so the frames are dispatched newest first. -/
def dispatchLoop (devs : List epos_t) (buf : List CanMsg) : List epos_t :=
  buf.reverse.foldl (fun ds m => (dispatchOne ds m).1) devs

/-- Per-device body of processPDOMessage (epos.c lines 2338-2347): decode
a pending channel-3 frame into RxPosition, then a pending channel-4
frame into RxVelocity, clearing the flags that were consumed. -/
def decodePDO (e : epos_t) : epos_t :=
  let e1 :=
    if e.PDO3RcvFlag = true then
      { e with
        RxPosition := toInt32 (le32 (e.PDO3Msg.byte 2) (e.PDO3Msg.byte 3)
          (e.PDO3Msg.byte 4) (e.PDO3Msg.byte 5)),
        PDO3RcvFlag := false }
    else e
  if e1.PDO4RcvFlag = true then
    { e1 with
      RxVelocity := toInt32 (le32 (e1.PDO4Msg.byte 2) (e1.PDO4Msg.byte 3)
        (e1.PDO4Msg.byte 4) (e1.PDO4Msg.byte 5)),
      PDO4RcvFlag := false }
  else e1

/-- Model of processPDOMessage (epos.c lines 2334-2350). -/
def processPDOMessage (devs : List epos_t) : List epos_t := devs.map decodePDO

/-- Model of processCANMsg (epos.c lines 2275-2332): drain the frame
buffer newest first through the dispatcher, then run the PDO decode pass. -/
def processCANMsg (devs : List epos_t) (buf : List CanMsg) : List epos_t :=
  processPDOMessage (dispatchLoop devs buf)

/-- An all-zero CAN frame, for building concrete device values. -/
def emptyMsg : CanMsg := { StdId := 0, DLC := 0, Data := [] }

/-- A freshly initialised device with the given node id (openEPOS clears
all receive flags; the remaining fields start from zero values). -/
def mkDev (n : Nat) : epos_t :=
  { Node_ID := n, TxMessage := emptyMsg, SDOMsg := emptyMsg, ErrFlag := false,
    Dev_Err := 0, SDORcvFlag := false, PDO1Msg := emptyMsg, PDO1RcvFlag := false,
    PDO2Msg := emptyMsg, PDO2RcvFlag := false, PDO3Msg := emptyMsg,
    PDO3RcvFlag := false, PDO4Msg := emptyMsg, PDO4RcvFlag := false,
    RxPosition := 0, RxVelocity := 0, E_error := 0 }

/-- The SDO request frame both ReadObject and WriteObject assemble into
TxMessage: identifier 0x600 + node, DLC 8, payload opcode, index low,
index high, subindex, then the four data bytes. -/
def sdoFrame (opcode nodeId Index SubIndex b4 b5 b6 b7 : Nat) : CanMsg :=
  { StdId := 0x600 + nodeId, DLC := 8,
    Data := [opcode, Index &&& 0xFF, (Index &&& 0xFF00) >>> 8, SubIndex, b4, b5, b6, b7] }

/-- Arrival of the routed SDO response at the device (what the dispatcher
branch for offset 0x580 performs while readAnswer is polling the flag). -/
def deliverSDO (e : epos_t) (r : CanMsg) : epos_t :=
  { e with SDOMsg := r, SDORcvFlag := true }

/-- Model of readAnswer (epos.c lines 1997-2023): clear E_error, consume
the SDO receive flag, and if the first payload byte is the abort marker
0x80, record the little-endian 32-bit code from bytes 4..7 into E_error.
Always returns 1.  When the flag is not up the C code spins forever; the
model returns none in that case. -/
def readAnswer (e : epos_t) : Option (epos_t × Int) :=
  if e.SDORcvFlag = true then
    let e1 : epos_t := { e with E_error := 0x00, SDORcvFlag := false }
    if e.SDOMsg.byte 0 = 0x80 then
      some ({ e1 with
              E_error := le32 (e.SDOMsg.byte 4) (e.SDOMsg.byte 5)
                (e.SDOMsg.byte 6) (e.SDOMsg.byte 7) }, 1)
    else some (e1, 1)
  else none

/-- The global busy flag together with the device the transaction uses
(SDOBusy, epos.c line 185). -/
structure World where
  SDOBusy : Bool
  dev : epos_t
deriving Repr, DecidableEq

/-- Model of checkEPOSerror (epos.c lines 1875-1943): 0 when the recorded
E_error is E_NOERR, otherwise -1 (every non-zero case prints a message
and falls through to return -1). -/
def checkEPOSerror (e : epos_t) : Int := if e.E_error = 0 then 0 else -1

/-- Model of ReadObject (epos.c lines 2026-2055).  sendOk tells whether
sendCom succeeded; resp is the response frame the dispatcher delivers
during the wait (none when no response ever arrives, in which case the
call never returns).  Result: final world, return value, and the value
written through the param pointer (none when the early send-failure
return leaves it unwritten).  Remark: the early return leaves SDOBusy
true, and the return value is the 1 of readAnswer even for an abort response. -/
def ReadObject (w : World) (Index SubIndex : Nat) (sendOk : Bool) (resp : Option CanMsg) :
    Option (World × Int × Option Nat) :=
  let e0 := { w.dev with
              TxMessage := sdoFrame 0x40 w.dev.Node_ID Index SubIndex 0x00 0x00 0x00 0x00 }
  if sendOk = false then some ({ SDOBusy := true, dev := e0 }, -1, none)
  else
    match resp with
    | none => none
    | some r =>
        match readAnswer (deliverSDO e0 r) with
        | none => none
        | some (e1, ret) =>
            some ({ SDOBusy := false, dev := e1 }, ret,
              some (le32 (e1.SDOMsg.byte 4) (e1.SDOMsg.byte 5)
                (e1.SDOMsg.byte 6) (e1.SDOMsg.byte 7)))

/-- Model of WriteObject (epos.c lines 2074-2105).  The request carries
the two 16-bit words of param split into bytes; the return value is -1
on send failure, otherwise checkEPOSerror after the response is read.
WriteObject never touches SDOBusy. -/
def WriteObject (w : World) (Index SubIndex : Nat) (param0 param1 : Nat)
    (sendOk : Bool) (resp : Option CanMsg) : Option (World × Int) :=
  let e0 := { w.dev with
              TxMessage := sdoFrame 0x22 w.dev.Node_ID Index SubIndex
                (param0 &&& 0xFF) ((param0 &&& 0xFF00) >>> 8)
                (param1 &&& 0xFF) ((param1 &&& 0xFF00) >>> 8) }
  if sendOk = false then some ({ w with dev := e0 }, -1)
  else
    match resp with
    | none => none
    | some r =>
        match readAnswer (deliverSDO e0 r) with
        | none => none
        | some (e1, ret) =>
            if ret < 0 then some ({ w with dev := e1 }, -1)
            else some ({ w with dev := e1 }, checkEPOSerror e1)

/-- Model of readStatusword (epos.c lines 265-291): ReadObject on index
0x6041 subindex 0x00; on a negative return pass -1 up with the output
word unwritten; otherwise call checkEPOSerror (discarding its result),
store the low 16 bits of the answer, and return 0. -/
def readStatusword (w : World) (sendOk : Bool) (resp : Option CanMsg) :
    Option (World × Int × Option Nat) :=
  match ReadObject w 0x6041 0x00 sendOk resp with
  | none => none
  | some (w1, n, answer) =>
      if n < 0 then some (w1, -1, none)
      else some (w1, 0, some (answer.getD 0 &&& 0xFFFF))

/-- One SDO operation issued by a higher-level routine, for tracking which
dictionary accesses a routine performs. -/
inductive SdoOp where
  | writeOp (Index : Nat) (SubIndex : Nat) (lo : Nat) (hi : Nat) : SdoOp
  | readOp (Index : Nat) (SubIndex : Nat) : SdoOp
deriving Repr, DecidableEq

/-- Bitwise complement within a 16-bit word, the effect of the C
expression (WORD)(dw[0] &= ~MASK) for a 16-bit mask. -/
def wnot (b : Nat) : Nat := 0xFFFF ^^^ b

/-- Model of changeEPOSstate (epos.c lines 580-709) as the sequence of SDO
operations it issues.  The device argument mirrors the C parameter; the
control word dw[0] is built from the literal 0x0000 by the exact bit
operations of each switch case (the source never reads the old control
word back - the read-back code at lines 686-699 is commented out).
An unknown target state issues nothing and fails. -/
def changeEPOSstate (_epos : epos_t) (state : Int) : List SdoOp :=
  let dw1 : Nat := 0x0000
  let d0 : Nat := 0x0000
  if state = 0 then
    let d := d0 &&& wnot E_BIT15
    let d := d ||| E_BIT02
    let d := d ||| E_BIT01
    let d := d &&& wnot E_BIT00
    [SdoOp.writeOp 0x6040 0x00 d dw1]
  else if state = 1 then
    let d := d0 &&& wnot E_BIT15
    let d := d ||| E_BIT02
    let d := d ||| E_BIT01
    let d := d ||| E_BIT00
    [SdoOp.writeOp 0x6040 0x00 d dw1]
  else if state = 2 then
    let d := d0 &&& wnot E_BIT15
    let d := d &&& wnot E_BIT02
    [SdoOp.writeOp 0x6040 0x00 d dw1]
  else if state = 3 then
    let d := d0 &&& wnot E_BIT15
    let d := d &&& wnot E_BIT02
    let d := d ||| E_BIT02
    [SdoOp.writeOp 0x6040 0x00 d dw1]
  else if state = 4 then
    let d := d0 &&& wnot E_BIT15
    let d := d &&& wnot E_BIT03
    let d := d ||| E_BIT02
    let d := d ||| E_BIT01
    let d := d ||| E_BIT00
    [SdoOp.writeOp 0x6040 0x00 d dw1]
  else if state = 5 then
    let d := d0 &&& wnot E_BIT15
    let d := d ||| E_BIT03
    let d := d ||| E_BIT02
    let d := d ||| E_BIT01
    let d := d ||| E_BIT00
    [SdoOp.writeOp 0x6040 0x00 d dw1]
  else if state = 6 then
    let d := d0 ||| E_BIT07
    [SdoOp.writeOp 0x6040 0x00 d dw1]
  else []

/-- Model of the waitForTarget loop (epos.c lines 1840-1846), with i both
the timeout counter and the index into the stream of polled status
words: when t is non-zero and the counter passes t, return 1; otherwise
poll, and return 0 once bit 10 (target reached) is set.  fuel bounds the
number of loop iterations the model unrolls; none means the loop is
still running after that many polls. -/
def waitForTargetAux (st : Nat → Nat) (t : Nat) (i fuel : Nat) : Option Int :=
  match fuel with
  | 0 => none
  | fuel + 1 =>
      if t ≠ 0 ∧ i + 1 > t then some 1
      else if st i &&& E_BIT10 = E_BIT10 then some 0
      else waitForTargetAux st t (i + 1) fuel

/-- Model of waitForTarget (epos.c lines 1833-1850): t is the
caller-supplied timeout measured in polls (the source documents the
argument as seconds), t = 0 disables the timeout. -/
def waitForTarget (st : Nat → Nat) (t : Nat) (fuel : Nat) : Option Int :=
  waitForTargetAux st t 0 fuel

/-- Environment of one monitorHomingStatus run: per iteration, whether the
three telemetry reads succeed, and the status words the two
readStatusword calls of that iteration produce (statusA is printed only;
statusB is the value the control flow inspects). -/
structure HomingEnv where
  rpOk : Nat → Bool
  rvOk : Nat → Bool
  rcOk : Nat → Bool
  statusA : Nat → Nat
  statusB : Nat → Nat

/-- Model of the do-while loop of monitorHomingStatus (epos.c lines
1773-1806): a failed telemetry read breaks out of the loop, after which
the tail of the function returns 0; a status with bit 13 set returns -2;
the loop continues while both bit 10 and bit 12 are clear, and falls
through to the returning tail (0) otherwise.  none models a loop still
running after fuel iterations. -/
def monitorHomingLoop (env : HomingEnv) (i fuel : Nat) : Option Int :=
  match fuel with
  | 0 => none
  | fuel + 1 =>
      if env.rpOk i = false ∨ env.rvOk i = false ∨ env.rcOk i = false then some 0
      else if env.statusB i &&& E_BIT13 = E_BIT13 then some (-2)
      else if env.statusB i &&& E_BIT10 ≠ E_BIT10 ∧ env.statusB i &&& E_BIT12 ≠ E_BIT12 then
        monitorHomingLoop env (i + 1) fuel
      else some 0

/-- Model of monitorHomingStatus (epos.c lines 1763-1829). -/
def monitorHomingStatus (env : HomingEnv) (fuel : Nat) : Option Int :=
  monitorHomingLoop env 0 fuel

/-- The status dispatch of doHoming after the monitor returns (epos.c
lines 1555-1566): a non-zero status falls into the broken-device branch
(return 2) exactly when it equals 1; any other non-zero status only
prints and execution continues (none here means no early return). -/
def doHomingStatusCheck (status : Int) : Option Int :=
  if status ≠ 0 then (if status = 1 then some 2 else none) else none

/-- A concrete channel-3 telemetry frame for node 1 carrying the position
value 0x11 in bytes 2..5. -/
def pdoMsgA : CanMsg :=
  { StdId := 0x381, DLC := 8, Data := [0x00, 0x00, 0x11, 0x00, 0x00, 0x00, 0x00, 0x00] }

/-- A second concrete channel-3 telemetry frame for node 1, carrying the
position value 0x22. -/
def pdoMsgB : CanMsg :=
  { StdId := 0x381, DLC := 8, Data := [0x00, 0x00, 0x22, 0x00, 0x00, 0x00, 0x00, 0x00] }

/-- A concrete SDO abort response for index 0x6041: opcode 0x80 and the
code 0x06090030 (value range exceeded) little-endian in bytes 4..7. -/
def respAbort : CanMsg :=
  { StdId := 0x581, DLC := 8, Data := [0x80, 0x41, 0x60, 0x00, 0x30, 0x00, 0x09, 0x06] }

/-- A concrete successful SDO response carrying the value 0x137. -/
def respValue : CanMsg :=
  { StdId := 0x581, DLC := 8, Data := [0x43, 0x41, 0x60, 0x00, 0x37, 0x01, 0x00, 0x00] }


/-- A concrete starting world for SDO-transaction witnesses: idle bus flag
and a node-1 device carrying a stale error code from an earlier
transaction. -/
def wStart : World := { SDOBusy := false, dev := { mkDev 1 with E_error := 0x1234 } }


/-- Recogniser for a trace operation that is a write to the control word
(index 0x6040, subindex 0x00), and in particular not a read of anything. -/
def isCtrlWrite (op : SdoOp) : Bool :=
  match op with
  | SdoOp.writeOp i si _ _ => i == 0x6040 && si == 0x00
  | SdoOp.readOp _ _ => false

/-- Status stream that never reports target reached. -/
def stZero : Nat → Nat := fun _ => 0

/-- Status stream whose poll number 1 reports target reached. -/
def stHit : Nat → Nat := fun k => if k = 1 then 0x0400 else 0

/-- A homing-monitor environment whose very first status poll reports
target reached with no homing error. -/
def homingEnvQuick : HomingEnv :=
  { rpOk := fun _ => true, rvOk := fun _ => true, rcOk := fun _ => true,
    statusA := fun _ => 0, statusB := fun _ => 0x0400 }

/-!  Theorems. -/

/-- The exact polarity of the nine tested bits that branch i of
checkEPOSstate requires, as a tuple in the same order as bitsOf. -/
def sigOf (i : Nat) : StatusBits :=
  match i with
  | 0 => (false, false, false, false, false, false, false, false, false)
  | 1 => (false, false, false, false, false, false, false, true, false)
  | 2 => (false, false, false, false, false, false, true, true, false)
  | 3 => (true, false, false, false, false, true, false, true, false)
  | 4 => (true, true, false, false, false, true, false, true, false)
  | 5 => (true, true, false, false, false, true, false, true, true)
  | 6 => (true, true, false, false, true, true, false, true, true)
  | 7 => (true, true, true, false, true, true, false, true, false)
  | 8 => (true, true, true, false, true, false, false, true, false)
  | 9 => (true, true, true, true, false, false, false, true, false)
  | 10 => (true, true, true, true, true, false, false, true, false)
  | 11 => (false, false, false, true, false, false, false, true, false)
  | _ => (false, false, false, false, false, false, false, false, false)

set_option maxHeartbeats 3000000 in
theorem patternBits_true_iff (i : Nat) (hi : i < 12) (s : StatusBits) :
    patternBits i s = true ↔ s = sigOf i := by
  obtain ⟨a0, a1, a2, a3, a4, a5, a6, a8, a14⟩ := s
  interval_cases i <;> simp [patternBits, sigOf, Prod.mk.injEq, and_assoc]

set_option maxHeartbeats 1600000 in
theorem sigOf_inj : ∀ i, i < 12 → ∀ j, j < 12 → sigOf i = sigOf j → i = j := by
  intro i hi j hj h
  interval_cases i <;> interval_cases j <;>
    first
      | rfl
      | exact absurd h (by decide)

theorem stateOfBits_sigOf : ∀ i, i < 12 → stateOfBits (sigOf i) = (i : Int) := by
  decide

/-- C2: for every 16-bit status word, checkEPOSstate returns the ordinal
of the branch pattern the word matches; the twelve branch patterns
(states 0 through 11) are pairwise disjoint, so at most one matches; and
a word matching none of them decodes to the distinguished unknown result
-2.  (The statement holds for every Nat, hence for every 16-bit word.) -/
theorem checkEPOSstate_decode_spec :
    (∀ w i, i < 12 → pattern i w = true → checkEPOSstate w = (i : Int)) ∧
    (∀ w i, i < 12 → ∀ j, j < 12 → pattern i w = true → pattern j w = true → i = j) ∧
    (∀ w, (∀ i, i < 12 → pattern i w = false) → checkEPOSstate w = -2) := by
  refine ⟨?_, ?_, ?_⟩
  · intro w i hi h
    have hs : bitsOf w = sigOf i := (patternBits_true_iff i hi (bitsOf w)).mp h
    show stateOfBits (bitsOf w) = (i : Int)
    rw [hs]
    exact stateOfBits_sigOf i hi
  · intro w i hi j hj h1 h2
    exact sigOf_inj i hi j hj
      (((patternBits_true_iff i hi (bitsOf w)).mp h1).symm.trans
        ((patternBits_true_iff j hj (bitsOf w)).mp h2))
  · intro w h
    have hk : ∀ k, k < 12 → patternBits k (bitsOf w) = false := h
    show stateOfBits (bitsOf w) = -2
    simp [stateOfBits, hk 0 (by omega), hk 1 (by omega), hk 2 (by omega), hk 3 (by omega),
      hk 4 (by omega), hk 5 (by omega), hk 6 (by omega), hk 7 (by omega), hk 8 (by omega),
      hk 9 (by omega), hk 10 (by omega), hk 11 (by omega)]

/-- Witness for the decoder theorem at concrete words: 0x0137 matches the
operation-enable pattern (state 7) and decodes to 7, while 0x0141
matches no pattern and decodes to -2. -/
theorem checkEPOSstate_decode_spec_witness :
    pattern 7 0x0137 = true ∧ checkEPOSstate 0x0137 = ((7 : Nat) : Int) ∧
    (∀ i, i < 12 → pattern i 0x0141 = false) ∧ checkEPOSstate 0x0141 = -2 :=
  ⟨by decide, checkEPOSstate_decode_spec.1 0x0137 7 (by decide) (by decide),
   by decide, checkEPOSstate_decode_spec.2.2 0x0141 (by decide)⟩


theorem applyMsg_isSome_iff (e : epos_t) (m : CanMsg) :
    (applyMsg e m).isSome = true ↔
      (m.StdId = e.Node_ID + 0x180 ∨ m.StdId = e.Node_ID + 0x280 ∨
       m.StdId = e.Node_ID + 0x380 ∨ m.StdId = e.Node_ID + 0x480 ∨
       m.StdId = e.Node_ID + 0x580 ∨ m.StdId = e.Node_ID + 0x80) := by
  unfold applyMsg
  split_ifs <;> simp_all

theorem matches_node_eq (e1 e2 : epos_t) (m : CanMsg)
    (h1r : 1 ≤ e1.Node_ID ∧ e1.Node_ID ≤ 127) (h2r : 1 ≤ e2.Node_ID ∧ e2.Node_ID ≤ 127)
    (h1 : (applyMsg e1 m).isSome = true) (h2 : (applyMsg e2 m).isSome = true) :
    e1.Node_ID = e2.Node_ID := by
  rw [applyMsg_isSome_iff] at h1 h2
  rcases h1 with h1|h1|h1|h1|h1|h1 <;> rcases h2 with h2|h2|h2|h2|h2|h2 <;> omega

theorem applyMsg_Node_ID (e x : epos_t) (m : CanMsg) (h : applyMsg e m = some x) :
    x.Node_ID = e.Node_ID := by
  unfold applyMsg at h
  split_ifs at h <;> injection h with h2 <;> subst h2 <;> rfl

theorem updDev_Node_ID (m : CanMsg) (d : epos_t) : (updDev m d).Node_ID = d.Node_ID := by
  unfold updDev
  cases h : applyMsg d m with
  | none => rfl
  | some x => simpa using applyMsg_Node_ID d x m h

theorem updDev_of_none (m : CanMsg) (d : epos_t) (h : applyMsg d m = none) :
    updDev m d = d := by
  unfold updDev
  rw [h]
  rfl

theorem map_updDev_of_none (m : CanMsg) (l : List epos_t)
    (h : ∀ d ∈ l, applyMsg d m = none) : l.map (updDev m) = l := by
  induction l with
  | nil => rfl
  | cons d rest ih =>
      rw [List.map_cons, updDev_of_none m d (h d (List.mem_cons_self _ _)), ih]
      intro x hx
      exact h x (List.mem_cons_of_mem d hx)

theorem dispatchOne_snd (devs : List epos_t) (m : CanMsg) :
    (dispatchOne devs m).2 = devs.any (fun e => (applyMsg e m).isSome) := by
  induction devs with
  | nil => rfl
  | cons e rest ih =>
      unfold dispatchOne
      cases h : applyMsg e m <;> simp [h, ih]

theorem dispatchOne_of_no_match (devs : List epos_t) (m : CanMsg)
    (h : ∀ e ∈ devs, applyMsg e m = none) : dispatchOne devs m = (devs, false) := by
  induction devs with
  | nil => rfl
  | cons e rest ih =>
      unfold dispatchOne
      rw [h e (List.mem_cons_self _ _)]
      have := ih (fun x hx => h x (List.mem_cons_of_mem e hx))
      simp [this]

theorem dispatchOne_fst_eq_map (devs : List epos_t) (m : CanMsg)
    (hrange : ∀ e ∈ devs, 1 ≤ e.Node_ID ∧ e.Node_ID ≤ 127)
    (hnodup : (devs.map epos_t.Node_ID).Nodup) :
    (dispatchOne devs m).1 = devs.map (updDev m) := by
  induction devs with
  | nil => rfl
  | cons e rest ih =>
      rw [List.map_cons, List.nodup_cons] at hnodup
      unfold dispatchOne
      cases h : applyMsg e m with
      | some e2 =>
          have hrest : ∀ d ∈ rest, applyMsg d m = none := by
            intro d hd
            cases hdm : applyMsg d m with
            | none => rfl
            | some x =>
                exfalso
                have hde : d.Node_ID = e.Node_ID :=
                  matches_node_eq d e m
                    (hrange d (List.mem_cons_of_mem e hd)) (hrange e (List.mem_cons_self _ _))
                    (by rw [hdm]; rfl) (by rw [h]; rfl)
                exact hnodup.1 (hde ▸ List.mem_map_of_mem _ hd)
          have hupd : updDev m e = e2 := by unfold updDev; rw [h]; rfl
          simp [hupd, map_updDev_of_none m rest hrest]
      | none =>
          have hupd : updDev m e = e := updDev_of_none m e h
          have := ih (fun x hx => hrange x (List.mem_cons_of_mem e hx)) hnodup.2
          simp [hupd, this]

/-- C3: with pairwise-distinct node ids in [1,127], the dispatcher scan
routes a buffered frame into exactly one device slot: (a) a frame no
device matches leaves every device untouched and is only reported;
(b) the scan result equals a per-device update in which at most one
device changes, and the claimed flag is set exactly when some device
matches; (c) any two devices matching the same frame are the same
device (so the first-match rule touches exactly one device); (d) a frame
with id node + 0x580 is delivered into the SDO slot of that node device
(raising SDORcvFlag, touching no PDO slot of it) and matches no other
device, in particular no PDO slot of any device. -/
theorem dispatcher_routes_uniquely (devs : List epos_t) (m : CanMsg)
    (hrange : ∀ e ∈ devs, 1 ≤ e.Node_ID ∧ e.Node_ID ≤ 127)
    (hnodup : (devs.map epos_t.Node_ID).Nodup) :
    ((∀ e ∈ devs, applyMsg e m = none) → dispatchOne devs m = (devs, false)) ∧
    ((dispatchOne devs m).1 = devs.map (updDev m) ∧
      (dispatchOne devs m).2 = devs.any (fun e => (applyMsg e m).isSome)) ∧
    (∀ e1 ∈ devs, ∀ e2 ∈ devs, (applyMsg e1 m).isSome = true →
      (applyMsg e2 m).isSome = true → e1.Node_ID = e2.Node_ID) ∧
    (∀ e ∈ devs, m.StdId = e.Node_ID + 0x580 →
      applyMsg e m = some { e with SDOMsg := m, SDORcvFlag := true } ∧
      ∀ e2 ∈ devs, e2.Node_ID ≠ e.Node_ID → applyMsg e2 m = none) := by
  refine ⟨dispatchOne_of_no_match devs m,
    ⟨dispatchOne_fst_eq_map devs m hrange hnodup, dispatchOne_snd devs m⟩, ?_, ?_⟩
  · intro e1 h1 e2 h2 hs1 hs2
    exact matches_node_eq e1 e2 m (hrange e1 h1) (hrange e2 h2) hs1 hs2
  · intro e he hsdo
    constructor
    · unfold applyMsg
      rw [if_neg (by omega), if_neg (by omega), if_neg (by omega), if_neg (by omega),
        if_pos hsdo]
    · intro e2 he2 hne
      cases hdm : applyMsg e2 m with
      | none => rfl
      | some x =>
          exfalso
          have hes : (applyMsg e m).isSome = true := by
            have : applyMsg e m = some { e with SDOMsg := m, SDORcvFlag := true } := by
              unfold applyMsg
              rw [if_neg (by omega), if_neg (by omega), if_neg (by omega), if_neg (by omega),
                if_pos hsdo]
            rw [this]; rfl
          exact hne (matches_node_eq e2 e m (hrange e2 he2) (hrange e he)
            (by rw [hdm]; rfl) hes)

/-- Witness for the dispatcher theorem: on two devices with nodes 1 and 2,
the SDO response frame for node 1 is claimed by device 1 into its SDO
slot, and device 2 does not match it. -/
theorem dispatcher_routes_uniquely_witness :
    dispatchOne [mkDev 1, mkDev 2] respAbort =
      ([{ mkDev 1 with SDOMsg := respAbort, SDORcvFlag := true }, mkDev 2], true) ∧
    applyMsg (mkDev 2) respAbort = none := by
  obtain ⟨-, ⟨hmap, hflag⟩, -, hsdo⟩ :=
    dispatcher_routes_uniquely [mkDev 1, mkDev 2] respAbort (by decide) (by decide)
  constructor
  · have hpair : dispatchOne [mkDev 1, mkDev 2] respAbort =
        ((dispatchOne [mkDev 1, mkDev 2] respAbort).1,
         (dispatchOne [mkDev 1, mkDev 2] respAbort).2) := rfl
    rw [hpair, hmap, hflag]
    decide
  · exact (hsdo (mkDev 1) (by decide) (by decide)).2 (mkDev 2) (by decide) (by decide)

theorem foldr_updDev_Node_ID (buf : List CanMsg) (d : epos_t) :
    (buf.foldr updDev d).Node_ID = d.Node_ID := by
  induction buf with
  | nil => rfl
  | cons m rest ih => rw [List.foldr_cons, updDev_Node_ID, ih]

theorem dispatchLoop_eq_foldr (devs : List epos_t) (buf : List CanMsg) :
    dispatchLoop devs buf = buf.foldr (fun m ds => (dispatchOne ds m).1) devs := by
  unfold dispatchLoop
  rw [List.foldl_reverse]

theorem dispatchOne_map_Node_ID (devs : List epos_t) (m : CanMsg) :
    (dispatchOne devs m).1.map epos_t.Node_ID = devs.map epos_t.Node_ID := by
  induction devs with
  | nil => rfl
  | cons e rest ih =>
      unfold dispatchOne
      cases h : applyMsg e m with
      | some e2 => simp [applyMsg_Node_ID e e2 m h]
      | none => simpa using ih

theorem dispatchFoldr_eq_map (buf : List CanMsg) (devs : List epos_t)
    (hrange : ∀ e ∈ devs, 1 ≤ e.Node_ID ∧ e.Node_ID ≤ 127)
    (hnodup : (devs.map epos_t.Node_ID).Nodup) :
    buf.foldr (fun m ds => (dispatchOne ds m).1) devs =
      devs.map (fun d => buf.foldr updDev d) := by
  induction buf with
  | nil => simp
  | cons m rest ih =>
      rw [List.foldr_cons, ih]
      have hids : (devs.map (fun d => rest.foldr updDev d)).map epos_t.Node_ID =
          devs.map epos_t.Node_ID := by
        rw [List.map_map]
        exact List.map_congr_left fun d _ => foldr_updDev_Node_ID rest d
      have hr2 : ∀ e ∈ devs.map (fun d => rest.foldr updDev d),
          1 ≤ e.Node_ID ∧ e.Node_ID ≤ 127 := by
        intro e he
        obtain ⟨d, hd, rfl⟩ := List.mem_map.mp he
        rw [foldr_updDev_Node_ID]
        exact hrange d hd
      rw [dispatchOne_fst_eq_map _ m hr2 (by rw [hids]; exact hnodup), List.map_map]
      rfl

theorem updDev_PDO3_of_match (m : CanMsg) (x : epos_t) (h : m.StdId = x.Node_ID + 0x380) :
    (updDev m x).PDO3Msg = m ∧ (updDev m x).PDO3RcvFlag = true := by
  unfold updDev applyMsg
  rw [if_neg (by omega), if_neg (by omega), if_pos h]
  exact ⟨rfl, rfl⟩

theorem updDev_PDO3_of_ne (m : CanMsg) (x : epos_t) (h : m.StdId ≠ x.Node_ID + 0x380) :
    (updDev m x).PDO3Msg = x.PDO3Msg ∧ (updDev m x).PDO3RcvFlag = x.PDO3RcvFlag := by
  unfold updDev applyMsg
  split_ifs <;> simp_all

theorem updDev_PDO4_of_match (m : CanMsg) (x : epos_t) (h : m.StdId = x.Node_ID + 0x480) :
    (updDev m x).PDO4Msg = m ∧ (updDev m x).PDO4RcvFlag = true := by
  unfold updDev applyMsg
  rw [if_neg (by omega), if_neg (by omega), if_neg (by omega), if_pos h]
  exact ⟨rfl, rfl⟩

theorem updDev_PDO4_of_ne (m : CanMsg) (x : epos_t) (h : m.StdId ≠ x.Node_ID + 0x480) :
    (updDev m x).PDO4Msg = x.PDO4Msg ∧ (updDev m x).PDO4RcvFlag = x.PDO4RcvFlag := by
  unfold updDev applyMsg
  split_ifs <;> simp_all

theorem updDev_Rx (m : CanMsg) (x : epos_t) :
    (updDev m x).RxPosition = x.RxPosition ∧ (updDev m x).RxVelocity = x.RxVelocity := by
  unfold updDev applyMsg
  split_ifs <;> simp_all

theorem foldr_updDev_PDO3 (buf : List CanMsg) (d : epos_t) :
    (buf.foldr updDev d).PDO3Msg =
      ((buf.find? (fun m => m.StdId == d.Node_ID + 0x380)).getD d.PDO3Msg) ∧
    (buf.foldr updDev d).PDO3RcvFlag =
      ((buf.find? (fun m => m.StdId == d.Node_ID + 0x380)).isSome || d.PDO3RcvFlag) := by
  induction buf with
  | nil => exact ⟨rfl, rfl⟩
  | cons m rest ih =>
      rw [List.foldr_cons]
      by_cases h : m.StdId = d.Node_ID + 0x380
      · have hmatch := updDev_PDO3_of_match m (rest.foldr updDev d)
          (by rw [foldr_updDev_Node_ID]; exact h)
        rw [List.find?_cons_of_pos _ (by simpa using h)]
        simpa using hmatch
      · have hne := updDev_PDO3_of_ne m (rest.foldr updDev d)
          (by rw [foldr_updDev_Node_ID]; exact h)
        rw [List.find?_cons_of_neg _ (by simpa using h)]
        exact ⟨hne.1.trans ih.1, hne.2.trans ih.2⟩

theorem foldr_updDev_PDO4 (buf : List CanMsg) (d : epos_t) :
    (buf.foldr updDev d).PDO4Msg =
      ((buf.find? (fun m => m.StdId == d.Node_ID + 0x480)).getD d.PDO4Msg) ∧
    (buf.foldr updDev d).PDO4RcvFlag =
      ((buf.find? (fun m => m.StdId == d.Node_ID + 0x480)).isSome || d.PDO4RcvFlag) := by
  induction buf with
  | nil => exact ⟨rfl, rfl⟩
  | cons m rest ih =>
      rw [List.foldr_cons]
      by_cases h : m.StdId = d.Node_ID + 0x480
      · have hmatch := updDev_PDO4_of_match m (rest.foldr updDev d)
          (by rw [foldr_updDev_Node_ID]; exact h)
        rw [List.find?_cons_of_pos _ (by simpa using h)]
        simpa using hmatch
      · have hne := updDev_PDO4_of_ne m (rest.foldr updDev d)
          (by rw [foldr_updDev_Node_ID]; exact h)
        rw [List.find?_cons_of_neg _ (by simpa using h)]
        exact ⟨hne.1.trans ih.1, hne.2.trans ih.2⟩

theorem foldr_updDev_Rx (buf : List CanMsg) (d : epos_t) :
    (buf.foldr updDev d).RxPosition = d.RxPosition ∧
    (buf.foldr updDev d).RxVelocity = d.RxVelocity := by
  induction buf with
  | nil => exact ⟨rfl, rfl⟩
  | cons m rest ih =>
      rw [List.foldr_cons]
      exact ⟨(updDev_Rx m _).1.trans ih.1, (updDev_Rx m _).2.trans ih.2⟩

theorem decodePDO_RxPosition (e : epos_t) :
    (decodePDO e).RxPosition =
      (if e.PDO3RcvFlag then
        toInt32 (le32 (e.PDO3Msg.byte 2) (e.PDO3Msg.byte 3) (e.PDO3Msg.byte 4)
          (e.PDO3Msg.byte 5))
      else e.RxPosition) := by
  unfold decodePDO
  cases h3 : e.PDO3RcvFlag <;> cases h4 : e.PDO4RcvFlag <;> simp [h3, h4]

theorem decodePDO_RxVelocity (e : epos_t) :
    (decodePDO e).RxVelocity =
      (if e.PDO4RcvFlag then
        toInt32 (le32 (e.PDO4Msg.byte 2) (e.PDO4Msg.byte 3) (e.PDO4Msg.byte 4)
          (e.PDO4Msg.byte 5))
      else e.RxVelocity) := by
  unfold decodePDO
  cases h3 : e.PDO3RcvFlag <;> cases h4 : e.PDO4RcvFlag <;> simp [h3, h4]

/-- C6 (amended): after processCANMsg runs on a batch of buffered frames,
each device equals the PDO decode of the per-device fold of the batch;
for each device, the cached actual position equals the little-endian
decode of bytes 2..5 of the EARLIEST-arrived channel-3 frame of the
batch (the while loop drains the buffer newest first, so the oldest
matching frame is dispatched last and its payload is the one left in the
PDO3 slot); with no channel-3 frame in the batch the position cache is
unchanged, and with no channel-4 frame the velocity cache is unchanged -
in particular a channel-3 frame never affects the cached velocity. -/
theorem processCANMsg_pdo_cache (devs : List epos_t) (buf : List CanMsg)
    (hrange : ∀ e ∈ devs, 1 ≤ e.Node_ID ∧ e.Node_ID ≤ 127)
    (hnodup : (devs.map epos_t.Node_ID).Nodup) :
    processCANMsg devs buf = devs.map (fun d => decodePDO (buf.foldr updDev d)) ∧
    ∀ d ∈ devs,
      ((∀ f, buf.find? (fun m => m.StdId == d.Node_ID + 0x380) = some f →
          (decodePDO (buf.foldr updDev d)).RxPosition =
            toInt32 (le32 (f.byte 2) (f.byte 3) (f.byte 4) (f.byte 5))) ∧
       (buf.find? (fun m => m.StdId == d.Node_ID + 0x380) = none → d.PDO3RcvFlag = false →
          (decodePDO (buf.foldr updDev d)).RxPosition = d.RxPosition) ∧
       (buf.find? (fun m => m.StdId == d.Node_ID + 0x480) = none → d.PDO4RcvFlag = false →
          (decodePDO (buf.foldr updDev d)).RxVelocity = d.RxVelocity)) := by
  constructor
  · unfold processCANMsg processPDOMessage
    rw [dispatchLoop_eq_foldr, dispatchFoldr_eq_map buf devs hrange hnodup, List.map_map]
    rfl
  · intro d _
    refine ⟨?_, ?_, ?_⟩
    · intro f hf
      have h3 := foldr_updDev_PDO3 buf d
      rw [decodePDO_RxPosition, h3.2, h3.1, hf]
      simp
    · intro hf hflag
      have h3 := foldr_updDev_PDO3 buf d
      rw [decodePDO_RxPosition, h3.2, hf, hflag]
      simpa using (foldr_updDev_Rx buf d).1
    · intro hf hflag
      have h4 := foldr_updDev_PDO4 buf d
      rw [decodePDO_RxVelocity, h4.2, hf, hflag]
      simpa using (foldr_updDev_Rx buf d).2

/-- C6 counterexample: two channel-3 frames for node 1 arrive in the order
pdoMsgA (position 0x11) then pdoMsgB (position 0x22).  After the
dispatch-and-decode pass the cached position is 0x11, the payload of the
EARLIEST frame, not the little-endian decode 0x22 of the most recently
arrived channel-3 frame as the claim states. -/
theorem pdo_cache_not_most_recent :
    (processCANMsg [mkDev 1] [pdoMsgA, pdoMsgB]).map epos_t.RxPosition = [(0x11 : Int)] ∧
    toInt32 (le32 (pdoMsgB.byte 2) (pdoMsgB.byte 3) (pdoMsgB.byte 4) (pdoMsgB.byte 5)) =
      (0x22 : Int) ∧
    ¬ ((processCANMsg [mkDev 1] [pdoMsgA, pdoMsgB]).map epos_t.RxPosition =
        [toInt32 (le32 (pdoMsgB.byte 2) (pdoMsgB.byte 3) (pdoMsgB.byte 4) (pdoMsgB.byte 5))]) := by
  refine ⟨by decide, by decide, by decide⟩

/-- Witness for the amended PDO-cache theorem: on the two-frame batch the
cached position is the decode of the earliest channel-3 frame pdoMsgA. -/
theorem processCANMsg_pdo_cache_witness :
    processCANMsg [mkDev 1] [pdoMsgA, pdoMsgB] =
      [decodePDO ([pdoMsgA, pdoMsgB].foldr updDev (mkDev 1))] ∧
    (decodePDO ([pdoMsgA, pdoMsgB].foldr updDev (mkDev 1))).RxPosition =
      toInt32 (le32 (pdoMsgA.byte 2) (pdoMsgA.byte 3) (pdoMsgA.byte 4) (pdoMsgA.byte 5)) := by
  obtain ⟨hmap, hslots⟩ :=
    processCANMsg_pdo_cache [mkDev 1] [pdoMsgA, pdoMsgB] (by decide) (by decide)
  exact ⟨by simpa using hmap, (hslots (mkDev 1) (by decide)).1 pdoMsgA (by decide)⟩

theorem readAnswer_delivered (e : epos_t) (r : CanMsg) :
    readAnswer (deliverSDO e r) =
      some ({ e with
                SDOMsg := r, SDORcvFlag := false,
                E_error := (if r.byte 0 = 0x80 then
                    le32 (r.byte 4) (r.byte 5) (r.byte 6) (r.byte 7)
                  else 0) }, 1) := by
  unfold readAnswer deliverSDO
  by_cases h : r.byte 0 = 0x80 <;> simp [h]

/-- C10: a completed SDO transaction (ReadObject or WriteObject) leaves the
E_error field of the device equal to the little-endian 32-bit value of response
bytes 4..7 exactly when the first payload byte of the response is 0x80, and
equal to 0 otherwise - readAnswer clears E_error before inspecting the
response, so a non-abort response erases any error a previous
transaction recorded (the starting w.dev.E_error is arbitrary and does
not appear in the result). -/
theorem sdo_transaction_error_field (w : World) (Index SubIndex p0 p1 : Nat) (r : CanMsg) :
    (ReadObject w Index SubIndex true (some r)).map (fun x => x.1.dev.E_error) =
      some (if r.byte 0 = 0x80 then le32 (r.byte 4) (r.byte 5) (r.byte 6) (r.byte 7)
            else 0) ∧
    (WriteObject w Index SubIndex p0 p1 true (some r)).map (fun x => x.1.dev.E_error) =
      some (if r.byte 0 = 0x80 then le32 (r.byte 4) (r.byte 5) (r.byte 6) (r.byte 7)
            else 0) := by
  constructor
  · simp [ReadObject, readAnswer_delivered]
  · simp [WriteObject, readAnswer_delivered]

/-- C1 (amended): on an SDO read whose response has first payload byte
0x80, the little-endian value of bytes 4..7 is recorded as the device
last error (E_error) and is what checkEPOSerror subsequently reports as
a failure (-1, whenever that code is non-zero); but the read call itself
does not fail: ReadObject still returns its success value 1 with the
output value left as the abort-code bytes, and readStatusword (which
calls checkEPOSerror only for its printout and discards the result)
returns its success value 0, handing the caller the low 16 bits of the
abort code as the status word. -/
theorem sdo_read_abort_behavior (w : World) (Index SubIndex : Nat) (r : CanMsg)
    (habort : r.byte 0 = 0x80) :
    (ReadObject w Index SubIndex true (some r)).map
        (fun x => (x.2.1, x.2.2, x.1.dev.E_error)) =
      some (1, some (le32 (r.byte 4) (r.byte 5) (r.byte 6) (r.byte 7)),
            le32 (r.byte 4) (r.byte 5) (r.byte 6) (r.byte 7)) ∧
    (readStatusword w true (some r)).map
        (fun x => (x.2.1, x.2.2, x.1.dev.E_error)) =
      some (0, some (le32 (r.byte 4) (r.byte 5) (r.byte 6) (r.byte 7) &&& 0xFFFF),
            le32 (r.byte 4) (r.byte 5) (r.byte 6) (r.byte 7)) ∧
    (∀ w1 ret v, ReadObject w Index SubIndex true (some r) = some (w1, ret, v) →
      checkEPOSerror w1.dev =
        (if le32 (r.byte 4) (r.byte 5) (r.byte 6) (r.byte 7) = 0 then 0 else -1)) := by
  refine ⟨?_, ?_, ?_⟩
  · simp [ReadObject, readAnswer_delivered, habort]
  · simp [readStatusword, ReadObject, readAnswer_delivered, habort]
  · intro w1 ret v h
    simp only [ReadObject, readAnswer_delivered] at h
    rw [if_neg (by simp)] at h
    injection h with h2
    obtain ⟨hw, -⟩ := Prod.mk.inj h2
    rw [← hw]
    simp [checkEPOSerror, habort]

/-- C1 counterexample: for the concrete abort response respAbort (opcode
0x80, code 0x06090030), the read path reports success, not failure:
ReadObject returns 1 (its documented success value is positive, -1 its
failure value) and readStatusword returns 0 (its documented success
value), even though the response was an abort. -/
theorem sdo_read_abort_not_failing :
    respAbort.byte 0 = 0x80 ∧
    (ReadObject wStart 0x6041 0x00 true (some respAbort)).map (fun x => x.2.1) = some 1 ∧
    (readStatusword wStart true (some respAbort)).map (fun x => x.2.1) = some 0 := by
  refine ⟨by decide, by decide, by decide⟩

/-- Witness for the amended abort-read theorem at the concrete response
respAbort from the world wStart. -/
theorem sdo_read_abort_behavior_witness :
    respAbort.byte 0 = 0x80 ∧
    (ReadObject wStart 0x6041 0x00 true (some respAbort)).map
        (fun x => (x.2.1, x.2.2, x.1.dev.E_error)) =
      some (1, some 0x06090030, 0x06090030) :=
  ⟨by decide,
   ((sdo_read_abort_behavior wStart 0x6041 0x00 respAbort (by decide)).1).trans (by decide)⟩

/-- C4: an SDO write whose response is an abort (first payload byte 0x80)
carrying the code 0x06090030 (value range exceeded) in bytes 4..7 fails:
WriteObject returns -1 and the E_error field is left equal to exactly
0x06090030. -/
theorem sdo_write_abort_range (w : World) (Index SubIndex p0 p1 : Nat) (r : CanMsg)
    (h0 : r.byte 0 = 0x80) (h4 : r.byte 4 = 0x30) (h5 : r.byte 5 = 0x00)
    (h6 : r.byte 6 = 0x09) (h7 : r.byte 7 = 0x06) :
    (WriteObject w Index SubIndex p0 p1 true (some r)).map
        (fun x => (x.2, x.1.dev.E_error)) = some (-1, 0x06090030) := by
  have hcode : le32 (r.byte 4) (r.byte 5) (r.byte 6) (r.byte 7) = 0x06090030 := by
    rw [h4, h5, h6, h7]
    decide
  simp [WriteObject, readAnswer_delivered, h0, hcode, checkEPOSerror]

/-- Witness for the abort-write theorem at the concrete response respAbort. -/
theorem sdo_write_abort_range_witness :
    respAbort.byte 0 = 0x80 ∧ respAbort.byte 4 = 0x30 ∧ respAbort.byte 5 = 0x00 ∧
    respAbort.byte 6 = 0x09 ∧ respAbort.byte 7 = 0x06 ∧
    (WriteObject wStart 0x6040 0x00 0x003F 0x0000 true (some respAbort)).map
        (fun x => (x.2, x.1.dev.E_error)) = some (-1, 0x06090030) :=
  ⟨by decide, by decide, by decide, by decide, by decide,
   sdo_write_abort_range wStart 0x6040 0x00 0x003F 0x0000 respAbort
     (by decide) (by decide) (by decide) (by decide) (by decide)⟩

/-- C7: the SDOBusy flag is set by ReadObject but never consulted: a
second SDO call entered while SDOBusy is true is neither rejected nor
queued - ReadObject behaves identically whatever the flag value is
(conjunct one), WriteObject neither reads nor writes the flag (conjunct
two), and concretely a ReadObject entered with SDOBusy = true still
builds and sends its request frame (id 0x600 + node) and completes with
return value 1 (conjunct three). -/
theorem sdo_busy_never_consulted :
    (∀ (b : Bool) (d : epos_t) (Index SubIndex : Nat) (sendOk : Bool) (resp : Option CanMsg),
      ReadObject ⟨b, d⟩ Index SubIndex sendOk resp =
        ReadObject ⟨true, d⟩ Index SubIndex sendOk resp) ∧
    (∀ (b : Bool) (d : epos_t) (Index SubIndex p0 p1 : Nat) (sendOk : Bool)
        (resp : Option CanMsg),
      (WriteObject ⟨b, d⟩ Index SubIndex p0 p1 sendOk resp).map (fun x => (x.1.dev, x.2)) =
        (WriteObject ⟨true, d⟩ Index SubIndex p0 p1 sendOk resp).map
          (fun x => (x.1.dev, x.2)) ∧
      (WriteObject ⟨b, d⟩ Index SubIndex p0 p1 sendOk resp).map (fun x => x.1.SDOBusy) =
        (WriteObject ⟨b, d⟩ Index SubIndex p0 p1 sendOk resp).map (fun _ => b)) ∧
    (ReadObject ⟨true, mkDev 1⟩ 0x6041 0x00 true (some respValue)).map
        (fun x => (x.1.dev.TxMessage.StdId, x.2.1)) = some (0x601, 1) := by
  refine ⟨fun b d Index SubIndex sendOk resp => rfl, ?_, by decide⟩
  intro b d Index SubIndex p0 p1 sendOk resp
  cases sendOk
  · constructor <;> rfl
  · cases resp with
    | none => constructor <;> rfl
    | some r => constructor <;> simp [WriteObject, readAnswer_delivered]

/-- C5: the state-transition encoder is a pure function of the requested
target: it issues exactly the same operations whatever the device value
(first conjunct), every operation it ever issues is a write of the
control word 0x6040 subindex 0x00 - never a read of the existing control
word (second conjunct), and each of the seven valid targets issues one
write of its fixed literal: shutdown 0x0006, switch-on 0x0007,
disable-voltage 0x0000, quick-stop 0x0004, disable-operation 0x0007,
enable-operation 0x000F, fault-reset 0x0080 (third conjunct). -/
theorem changeEPOSstate_pure_literals :
    (∀ (e1 e2 : epos_t) (s : Int), changeEPOSstate e1 s = changeEPOSstate e2 s) ∧
    (∀ (e : epos_t) (s : Int), ∀ op ∈ changeEPOSstate e s, isCtrlWrite op = true) ∧
    (∀ e : epos_t,
      changeEPOSstate e 0 = [SdoOp.writeOp 0x6040 0x00 0x0006 0x0000] ∧
      changeEPOSstate e 1 = [SdoOp.writeOp 0x6040 0x00 0x0007 0x0000] ∧
      changeEPOSstate e 2 = [SdoOp.writeOp 0x6040 0x00 0x0000 0x0000] ∧
      changeEPOSstate e 3 = [SdoOp.writeOp 0x6040 0x00 0x0004 0x0000] ∧
      changeEPOSstate e 4 = [SdoOp.writeOp 0x6040 0x00 0x0007 0x0000] ∧
      changeEPOSstate e 5 = [SdoOp.writeOp 0x6040 0x00 0x000F 0x0000] ∧
      changeEPOSstate e 6 = [SdoOp.writeOp 0x6040 0x00 0x0080 0x0000]) := by
  refine ⟨fun e1 e2 s => rfl, ?_, fun e => ⟨rfl, rfl, rfl, rfl, rfl, rfl, rfl⟩⟩
  intro e s op hop
  unfold changeEPOSstate at hop
  split_ifs at hop <;> simp_all <;> rfl

/-- Witness for the state-encoder theorem: the single operation issued for
target 0 is a control-word write. -/
theorem changeEPOSstate_pure_literals_witness :
    (SdoOp.writeOp 0x6040 0x00 0x0006 0x0000) ∈ changeEPOSstate (mkDev 1) 0 ∧
    isCtrlWrite (SdoOp.writeOp 0x6040 0x00 0x0006 0x0000) = true := by
  have hmem : (SdoOp.writeOp 0x6040 0x00 0x0006 0x0000) ∈ changeEPOSstate (mkDev 1) 0 := by
    rw [(changeEPOSstate_pure_literals.2.2 (mkDev 1)).1]
    exact List.mem_singleton_self _
  exact ⟨hmem, changeEPOSstate_pure_literals.2.1 (mkDev 1) 0
    (SdoOp.writeOp 0x6040 0x00 0x0006 0x0000) hmem⟩

theorem waitForTargetAux_timeout (st : Nat → Nat) (t : Nat) (ht : 0 < t) :
    ∀ fuel i, i ≤ t → t - i < fuel →
      (∀ k, i ≤ k → k < t → st k &&& E_BIT10 ≠ E_BIT10) →
      waitForTargetAux st t i fuel = some 1 := by
  intro fuel
  induction fuel with
  | zero => intro i h1 h2 _; omega
  | succ f ih =>
      intro i hi hf hbits
      unfold waitForTargetAux
      by_cases hit : i = t
      · rw [if_pos ⟨by omega, by omega⟩]
      · rw [if_neg (by omega), if_neg (hbits i le_rfl (by omega))]
        exact ih (i + 1) (by omega) (by omega) (fun k hk1 hk2 => hbits k (by omega) hk2)

theorem waitForTargetAux_hits (st : Nat → Nat) (t : Nat) :
    ∀ fuel i k, i ≤ k → (t = 0 ∨ k < t) → k - i < fuel →
      (∀ j, i ≤ j → j < k → st j &&& E_BIT10 ≠ E_BIT10) →
      st k &&& E_BIT10 = E_BIT10 →
      waitForTargetAux st t i fuel = some 0 := by
  intro fuel
  induction fuel with
  | zero => intro i k h1 h2 h3 _ _; omega
  | succ f ih =>
      intro i k hik hkt hfu hprev hk
      unfold waitForTargetAux
      rw [if_neg (by omega)]
      by_cases hik2 : i = k
      · rw [hik2, if_pos hk]
      · rw [if_neg (hprev i le_rfl (by omega))]
        exact ih (i + 1) k (by omega) hkt (by omega) (fun j h1 h2 => hprev j (by omega) h2) hk

theorem waitForTargetAux_zero_no_timeout (st : Nat → Nat) :
    ∀ fuel i r, waitForTargetAux st 0 i fuel = some r → r = 0 := by
  intro fuel
  induction fuel with
  | zero => intro i r h; exact absurd h (by simp [waitForTargetAux])
  | succ f ih =>
      intro i r h
      unfold waitForTargetAux at h
      rw [if_neg (by omega)] at h
      by_cases hb : st i &&& E_BIT10 = E_BIT10
      · rw [if_pos hb] at h
        exact (Option.some.inj h).symm
      · rw [if_neg hb] at h
        exact ih (i + 1) r h

theorem waitForTargetAux_zero_runs (st : Nat → Nat) :
    ∀ fuel i, (∀ k, i ≤ k → k < i + fuel → st k &&& E_BIT10 ≠ E_BIT10) →
      waitForTargetAux st 0 i fuel = none := by
  intro fuel
  induction fuel with
  | zero => intro i _; rfl
  | succ f ih =>
      intro i h
      unfold waitForTargetAux
      rw [if_neg (by omega), if_neg (h i le_rfl (by omega))]
      exact ih (i + 1) (fun k hk1 hk2 => h k (by omega) (by omega))

/-- C8: the pre-position wait is bounded by the caller-supplied timeout
counted in whole polling periods: with t positive, if none of the first
t polled status words has the target-reached bit 10 set the call returns
the timeout failure 1 (first conjunct); it returns 0 as soon as a poll
within the budget (or, with t = 0, any poll) shows bit 10 set (second
conjunct); with t = 0 the timeout is disabled - the call can never
return 1 (third conjunct) and keeps polling while the bit stays clear
(fourth conjunct).  The loop bounds time only in polling periods; the
source comments call the unit seconds (each iteration delays 50 ms and
performs one blocking status read). -/
theorem waitForTarget_spec :
    (∀ (st : Nat → Nat) (t fuel : Nat), 0 < t → t < fuel →
      (∀ k, k < t → st k &&& E_BIT10 ≠ E_BIT10) → waitForTarget st t fuel = some 1) ∧
    (∀ (st : Nat → Nat) (t k fuel : Nat), (t = 0 ∨ k < t) → k < fuel →
      (∀ j, j < k → st j &&& E_BIT10 ≠ E_BIT10) → st k &&& E_BIT10 = E_BIT10 →
      waitForTarget st t fuel = some 0) ∧
    (∀ (st : Nat → Nat) (fuel : Nat) (r : Int),
      waitForTarget st 0 fuel = some r → r = 0) ∧
    (∀ (st : Nat → Nat) (fuel : Nat),
      (∀ k, k < fuel → st k &&& E_BIT10 ≠ E_BIT10) → waitForTarget st 0 fuel = none) := by
  refine ⟨?_, ?_, ?_, ?_⟩
  · intro st t fuel ht hf hb
    exact waitForTargetAux_timeout st t ht fuel 0 (by omega) (by omega)
      (fun k _ h2 => hb k h2)
  · intro st t k fuel hkt hf hprev hk
    exact waitForTargetAux_hits st t fuel 0 k (by omega) hkt (by omega)
      (fun j _ h2 => hprev j h2) hk
  · intro st fuel r h
    exact waitForTargetAux_zero_no_timeout st fuel 0 r h
  · intro st fuel h
    exact waitForTargetAux_zero_runs st fuel 0 (fun k _ h2 => h k (by omega))

/-- Witness for the wait theorem: a stream that never sets bit 10 times
out after a budget of 3 polls, and a stream whose poll 1 sets the bit
returns 0 within a budget of 5. -/
theorem waitForTarget_spec_witness :
    (0 < 3 ∧ 3 < 10 ∧ (∀ k, k < 3 → stZero k &&& E_BIT10 ≠ E_BIT10) ∧
      waitForTarget stZero 3 10 = some 1) ∧
    ((5 = 0 ∨ 1 < 5) ∧ 1 < 10 ∧ (∀ j, j < 1 → stHit j &&& E_BIT10 ≠ E_BIT10) ∧
      stHit 1 &&& E_BIT10 = E_BIT10 ∧ waitForTarget stHit 5 10 = some 0) :=
  ⟨⟨by decide, by decide, by decide,
    waitForTarget_spec.1 stZero 3 10 (by decide) (by decide) (by decide)⟩,
   ⟨by decide, by decide, by decide, by decide,
    waitForTarget_spec.2.1 stHit 5 1 10 (by decide) (by decide) (by decide) (by decide)⟩⟩

theorem monitorHomingLoop_values (env : HomingEnv) :
    ∀ fuel i r, monitorHomingLoop env i fuel = some r → r = 0 ∨ r = -2 := by
  intro fuel
  induction fuel with
  | zero => intro i r h; exact absurd h (by simp [monitorHomingLoop])
  | succ f ih =>
      intro i r h
      unfold monitorHomingLoop at h
      split_ifs at h with h1 h2 h3
      · exact Or.inl (Option.some.inj h).symm
      · exact Or.inr (Option.some.inj h).symm
      · exact ih (i + 1) r h
      · exact Or.inl (Option.some.inj h).symm

/-- C9: whatever the telemetry-read outcomes and polled status words, a
returning monitorHomingStatus run yields only 0 or -2 and never 1, so
the broken-device branch of doHoming (which requires monitor status 1 to
return 2) can never be taken. -/
theorem monitorHomingStatus_never_one :
    (∀ (env : HomingEnv) (fuel : Nat) (r : Int),
      monitorHomingStatus env fuel = some r → r = 0 ∨ r = -2) ∧
    (∀ (env : HomingEnv) (fuel : Nat) (r : Int),
      monitorHomingStatus env fuel = some r → doHomingStatusCheck r ≠ some 2) := by
  constructor
  · intro env fuel r h
    exact monitorHomingLoop_values env fuel 0 r h
  · intro env fuel r h
    rcases monitorHomingLoop_values env fuel 0 r h with h0 | h2
    · subst h0; decide
    · subst h2; decide

/-- Witness for the homing-monitor theorem: an environment whose first
poll shows target reached makes the monitor return 0, which is in the
allowed set and does not select the broken-device branch. -/
theorem monitorHomingStatus_never_one_witness :
    monitorHomingStatus homingEnvQuick 1 = some 0 ∧
    ((0 : Int) = 0 ∨ (0 : Int) = -2) ∧ doHomingStatusCheck 0 ≠ some 2 :=
  ⟨rfl, monitorHomingStatus_never_one.1 homingEnvQuick 1 0 rfl,
   monitorHomingStatus_never_one.2 homingEnvQuick 1 0 rfl⟩

end LibEPOS
